import Mathlib

/-!
# slimweb — verification of the HTTP/1.1 transport engine

Shallow embedding of the slimweb library (Rust) in Lean 4: byte streams are
`List Nat` (one `Nat` per byte), strings are kept at the UTF-8 byte level
(`List Nat`), machine integers are `Nat`/`Int` with explicit bounds where
overflow or the `usize`/`i32` range matters, and fallible operations return
`Except`/`Option`.  Each definition mirrors one function of the source
(`src/stream.rs`, `src/client/request.rs`, `src/client/response.rs`,
`src/server/mod.rs`, `src/server/response.rs`); the file comments cite the
source locations.
-/

deriving instance DecidableEq for Except

namespace Slimweb

/-- UTF-8 bytes of a Lean string literal (only used to write concrete byte
lists readably; all model strings are byte lists). -/
def bytesOfString (s : String) : List Nat :=
  s.data.map Char.toNat

/-! ## Errors

`Error` mirrors `src/error.rs`; `IoKind` stands for the `std::io::ErrorKind`
values the library distinguishes.  `CErr` is the decode-level error set of the
chunked reader (`src/stream.rs`): `eof` for `ErrorKind::UnexpectedEof`-style
I/O failures from `read_exact`/`read_line`, `chunkError` for
`Error::ChunkError` (bad hex size line), and `chunkDecode` for the
`"Problem decoding response chunk"` error raised when the CRLF after a chunk's
data run is missing. -/

inductive IoKind where
  | timedOut
  | unexpectedEof
  | generic
deriving DecidableEq, Repr

inductive Error where
  | invalidCredentialsInURL
  | hostNotASCII
  | tlsNotEnabled
  | noStatusLineInResponse
  | chunkError
  | maxRedirectsHit
  | noLocationHeader
  | connectionFailed
  | httpStatusCodeNotRecognized
  | io (k : IoKind)
deriving DecidableEq, Repr

inductive CErr where
  | eof
  | chunkError
  | chunkDecode
deriving DecidableEq, Repr

/-! ## Hexadecimal size rendering and parsing

`hexBytes` models Rust's `write!("{:x}", n)` (lowercase hex, `"0"` for zero);
`hexParse` models `usize::from_str_radix(s, 16)` (optional leading `'+'`,
hex digits of either case, overflow of the 64-bit `usize` is an error). -/

/-- Lowercase hex digit byte for `d < 16` (`'0'..'9'`, `'a'..'f'`). -/
def hexChar (d : Nat) : Nat :=
  if d < 10 then 48 + d else 87 + d

/-- Digits of `n` in base 16, most significant first, accumulated onto `acc`.
Structural fuel recursion; `fuel ≥ n` is always enough (`n < 16 ^ n` for
`n ≥ 1`). -/
def toHexGo : Nat → Nat → List Nat → List Nat
  | 0, _, acc => acc
  | fuel + 1, n, acc =>
    if n = 0 then acc else toHexGo fuel (n / 16) (hexChar (n % 16) :: acc)

/-- `{:x}` rendering of `n` as bytes. -/
def hexBytes (n : Nat) : List Nat :=
  if n = 0 then [48] else toHexGo n n []

/-- Value of a single hex digit byte, if it is one. -/
def hexDigitVal (b : Nat) : Option Nat :=
  if 48 ≤ b ∧ b ≤ 57 then some (b - 48)
  else if 97 ≤ b ∧ b ≤ 102 then some (b - 87)
  else if 65 ≤ b ∧ b ≤ 70 then some (b - 55)
  else none

/-- Fold hex digits left to right onto an accumulator; `none` on a non-digit. -/
def hexParseCore : List Nat → Nat → Option Nat
  | [], acc => some acc
  | b :: rest, acc =>
    match hexDigitVal b with
    | some d => hexParseCore rest (16 * acc + d)
    | none => none

/-- 64-bit `usize` overflow check of `from_str_radix` (overflow is a parse
error; the model fixes the common 64-bit target). -/
def usizeCk (n : Nat) : Option Nat :=
  if n < 2 ^ 64 then some n else none

/-- `usize::from_str_radix(s, 16)`: rejects the empty string, allows one
leading `'+'` (byte 43), then one or more hex digits, and errors on
overflow. -/
def hexParse (l : List Nat) : Option Nat :=
  if l = [] then none
  else if l.head? = some 43 then
    if l.tail = [] then none else (hexParseCore l.tail 0).bind usizeCk
  else (hexParseCore l 0).bind usizeCk

/-! ## Line reading (`read_line`, stream.rs 638-652)

`stream.take(max).read_until(b'\n', &mut buf)` reads bytes up to and including
the first `'\n'`, stopping early at `max` bytes or end of input; the trailing
`"\r\n"` or `"\n"` is then stripped, and its absence is an
`UnexpectedEof` error. -/

/-- Bytes read by `take(cap).read_until(b'\n')`: `(taken, rest)`. -/
def splitAtLF : Nat → List Nat → List Nat × List Nat
  | _, [] => ([], [])
  | 0, l => ([], l)
  | cap + 1, b :: rest =>
    if b = 10 then ([b], rest)
    else
      let r := splitAtLF cap rest
      (b :: r.1, r.2)

/-- `read_line` with byte cap `cap`: the line without its terminator, and the
rest of the input. -/
def read_line (cap : Nat) (input : List Nat) : Except CErr (List Nat × List Nat) :=
  let s := splitAtLF cap input
  match s.1.reverse with
  | 10 :: 13 :: r => .ok (r.reverse, s.2)
  | 10 :: r => .ok (r.reverse, s.2)
  | _ => .error .eof

/-! ## Chunked reader (`ChunkedReader`, stream.rs 68-151)

The reader's `fill_buf` loop, fully drained as by `read_to_end_until`: read a
size line (cap 128 bytes, extension text after `';'` ignored), size `0` sets
end-of-stream, otherwise read exactly that many bytes, then consume and
validate the trailing line ending (`read_line_ending`, stream.rs 654-664) —
one byte, a second one if the first was `'\r'`, valid iff the last is
`'\n'`. -/

/-- `read_chunk_size` (stream.rs 136-151): size value and remaining input. -/
def read_chunk_size (input : List Nat) : Except CErr (Nat × List Nat) :=
  match read_line 128 input with
  | .error e => .error e
  | .ok (line, rest) =>
    if line = [] then .error .eof
    else
      -- text after ';' is dropped before parsing; a UTF-8 failure and a hex
      -- parse failure both surface as Error::ChunkError in the source, and
      -- hexParse fails on exactly that union of inputs
      match hexParse (line.takeWhile (fun b => b ≠ 59)) with
      | some n => .ok (n, rest)
      | none => .error .chunkError

/-- `read_line_ending` (stream.rs 654-664): `Ok (last byte = '\n', rest)`,
`eof` if the input runs out. -/
def read_line_ending : List Nat → Except CErr (Bool × List Nat)
  | [] => .error .eof
  | b :: rest =>
    if b = 13 then
      match rest with
      | [] => .error .eof
      | b2 :: r2 => .ok (b2 == 10, r2)
    else .ok (b == 10, rest)

/-- One full drain of a `ChunkedReader` (stream.rs 77-106 under the
`read_to_end_until` loop): concatenation of the chunk payloads up to the
zero-size terminator.  Structural fuel recursion; one unit of fuel per chunk
frame, so `input.length + 1` always suffices (each frame consumes at least one
input byte). -/
def decodeChunkedLoop : Nat → List Nat → List Nat → Except CErr (List Nat)
  | 0, _, _ => .error .eof
  | fuel + 1, input, acc =>
    match read_chunk_size input with
    | .error e => .error e
    | .ok (n, rest) =>
      if n = 0 then
        -- eof flag set; the zero-size frame still has its line ending checked
        match read_line_ending rest with
        | .error e => .error e
        | .ok (ok, _) => if ok then .ok acc else .error .chunkDecode
      else
        if rest.length < n then .error .eof
        else
          match read_line_ending (rest.drop n) with
          | .error e => .error e
          | .ok (ok, rest2) =>
            if ok then decodeChunkedLoop fuel rest2 (acc ++ rest.take n)
            else .error .chunkDecode

/-- Full chunked-body decode of a byte stream. -/
def decodeChunked (input : List Nat) : Except CErr (List Nat) :=
  decodeChunkedLoop (input.length + 1) input []

/-! ## Chunked writer (`ChunkedWriter`, stream.rs 153-207)

`write` buffers the bytes and, while the buffer holds at least `chunk_size`
bytes, emits one frame of exactly `chunk_size` bytes (`write_to_payload`,
stream.rs 666-674); `flush` emits any non-empty remainder as one final
undersized frame.  Note: with `chunk_size = 0` the source's `while` loop never
terminates, so the drain is modelled for positive chunk sizes (the fuel guard
below is never reached when `0 < S`). -/

/-- `write_to_payload` (stream.rs 666-674): `<hex size>\r\n<data>\r\n`. -/
def write_to_payload (data : List Nat) : List Nat :=
  hexBytes data.length ++ [13, 10] ++ data ++ [13, 10]

/-- The `while buffer.len() >= chunk_size` loop of `ChunkedWriter::write`:
the list of emitted chunk payloads and the remaining buffer. -/
def cwDrainGo (S : Nat) : Nat → List Nat → List (List Nat) × List Nat
  | 0, b => ([], b)
  | fuel + 1, b =>
    if 0 < S ∧ S ≤ b.length then
      let r := cwDrainGo S fuel (b.drop S)
      (b.take S :: r.1, r.2)
    else ([], b)

/-- Drain of a buffer `b` at chunk size `S` (fuel `b.length` covers every
iteration since each one removes `S ≥ 1` bytes). -/
def cwDrain (S : Nat) (b : List Nat) : List (List Nat) × List Nat :=
  cwDrainGo S b.length b

/-- Chunk payloads emitted by `write` then `flush` on a fresh writer:
the full-size frames, then the non-empty remainder (if any) as one final
undersized frame (stream.rs 177-207). -/
def chunksAll (S : Nat) (P : List Nat) : List (List Nat) :=
  let r := cwDrain S P
  r.1 ++ (if r.2 = [] then [] else [r.2])

/-- Wire bytes of a list of chunk payloads. -/
def frames (cs : List (List Nat)) : List Nat :=
  (cs.map write_to_payload).flatten

/-- Byte stream written by a fresh `ChunkedWriter` for payload `P` at chunk
size `S`, via `write` then `flush`. -/
def chunkedWire (S : Nat) (P : List Nat) : List Nat :=
  frames (chunksAll S P)

/-! ## Deadline governor (`write_until` stream.rs 432-452, `read_until`
stream.rs 472-496)

A deadline is the pair `(absolute expiry, last refresh)` of instants;
instants are modelled as `Nat` milliseconds (`Instant` subtraction is
saturating here exactly where the source guarantees non-negativity).  Both
operations share the same prologue: only when at least 250 ms have elapsed
since the last refresh is expiry checked (a `TimedOut` I/O error) and the
socket's OS-level timeout re-armed to `expiry - now` with the refresh stamp
updated; the source takes `Instant::now()` afresh for the stamp, which the
pure model identifies with `now`. -/

/-- Effect of one governed operation on the socket's OS-level timeout. -/
inductive TimeoutEffect where
  | keep
  | set (d : Nat)
deriving DecidableEq, Repr

/-- Result of the underlying `stream.read(buf)` call in `read_until`. -/
inductive ReadRes where
  | bytes (n : Nat)
  | errCloseNotify
  | errOther
deriving DecidableEq, Repr

/-- `write_until` (stream.rs 432-452): deadline prologue, then the write;
`written` is the inner `stream.write` byte count.  Returns the count, the
timeout effect applied to the socket, and the updated deadline. -/
def write_until (now : Nat) (dl : Option (Nat × Nat)) (written : Nat) :
    Except Error (Nat × TimeoutEffect × Option (Nat × Nat)) :=
  match dl with
  | none => .ok (written, .keep, none)
  | some (line, reset) =>
    if 250 ≤ now - reset then
      if line ≤ now then .error (.io .timedOut)
      else .ok (written, .set (line - now), some (line, now))
    else .ok (written, .keep, some (line, reset))

/-- `read_until` (stream.rs 472-496): same prologue, then the read, with a
TLS close-notify `ConnectionAborted` error absorbed as a zero-byte read. -/
def read_until (now : Nat) (dl : Option (Nat × Nat)) (io : ReadRes) :
    Except Error (Nat × TimeoutEffect × Option (Nat × Nat)) :=
  match dl with
  | none =>
    match io with
    | .bytes n => .ok (n, .keep, none)
    | .errCloseNotify => .ok (0, .keep, none)
    | .errOther => .error (.io .generic)
  | some (line, reset) =>
    if 250 ≤ now - reset then
      if line ≤ now then .error (.io .timedOut)
      else
        match io with
        | .bytes n => .ok (n, .set (line - now), some (line, now))
        | .errCloseNotify => .ok (0, .set (line - now), some (line, now))
        | .errOther => .error (.io .generic)
    else
      match io with
      | .bytes n => .ok (n, .keep, some (line, reset))
      | .errCloseNotify => .ok (0, .keep, some (line, reset))
      | .errOther => .error (.io .generic)

/-! ## Hash-map model

Header maps (`HashMap<String, String>`) are modelled as association lists
with `insert` replacing an existing key in place; only `get`/`insert`/`remove`
semantics are used by the claims, never iteration order. -/

/-- `HashMap::insert`: replace the value of an existing key, else add. -/
def insertHM {α β : Type} [DecidableEq α] (k : α) (v : β) :
    List (α × β) → List (α × β)
  | [] => [(k, v)]
  | (k', v') :: rest =>
    if k' = k then (k, v) :: rest else (k', v') :: insertHM k v rest

/-- `HashMap::get`. -/
def lookupHM {α β : Type} [DecidableEq α] (k : α) :
    List (α × β) → Option β
  | [] => none
  | (k', v') :: rest => if k' = k then some v' else lookupHM k rest

/-- `HashMap::remove`. -/
def removeHM {α β : Type} [DecidableEq α] (k : α) :
    List (α × β) → List (α × β)
  | [] => []
  | (k', v') :: rest =>
    if k' = k then rest else (k', v') :: removeHM k rest

/-! ## Message framer (`parse_status_line` stream.rs 555-577,
`parse_header` stream.rs 579-596, `process_lines` stream.rs 526-553)

Strings stay at the byte level; `utf8Valid` is the `std::str::from_utf8`
validity check (RFC 3629 well-formedness). -/

/-- UTF-8 well-formedness of a byte sequence. -/
def utf8Valid : List Nat → Bool
  | [] => true
  | b :: rest =>
    if b < 128 then utf8Valid rest
    else if 194 ≤ b ∧ b ≤ 223 then
      match rest with
      | c1 :: r => (128 ≤ c1 && c1 ≤ 191) && utf8Valid r
      | _ => false
    else if b = 224 then
      match rest with
      | c1 :: c2 :: r =>
        (160 ≤ c1 && c1 ≤ 191) && (128 ≤ c2 && c2 ≤ 191) && utf8Valid r
      | _ => false
    else if (225 ≤ b ∧ b ≤ 236) ∨ b = 238 ∨ b = 239 then
      match rest with
      | c1 :: c2 :: r =>
        (128 ≤ c1 && c1 ≤ 191) && (128 ≤ c2 && c2 ≤ 191) && utf8Valid r
      | _ => false
    else if b = 237 then
      match rest with
      | c1 :: c2 :: r =>
        (128 ≤ c1 && c1 ≤ 159) && (128 ≤ c2 && c2 ≤ 191) && utf8Valid r
      | _ => false
    else if b = 240 then
      match rest with
      | c1 :: c2 :: c3 :: r =>
        (144 ≤ c1 && c1 ≤ 191) && (128 ≤ c2 && c2 ≤ 191) &&
          (128 ≤ c3 && c3 ≤ 191) && utf8Valid r
      | _ => false
    else if 241 ≤ b ∧ b ≤ 243 then
      match rest with
      | c1 :: c2 :: c3 :: r =>
        (128 ≤ c1 && c1 ≤ 191) && (128 ≤ c2 && c2 ≤ 191) &&
          (128 ≤ c3 && c3 ≤ 191) && utf8Valid r
      | _ => false
    else if b = 244 then
      match rest with
      | c1 :: c2 :: c3 :: r =>
        (128 ≤ c1 && c1 ≤ 143) && (128 ≤ c2 && c2 ≤ 191) &&
          (128 ≤ c3 && c3 ≤ 191) && utf8Valid r
      | _ => false
    else false

/-- `"…".split(|&b| b == b' ').filter(|x| !x.is_empty())`: the space-separated
tokens of a line, empties discarded.  Single accumulator pass (`cur` holds the
current token reversed). -/
def tokensGo (cur : List Nat) : List Nat → List (List Nat)
  | [] => if cur = [] then [] else [cur.reverse]
  | b :: rest =>
    if b = 32 then
      if cur = [] then tokensGo [] rest else cur.reverse :: tokensGo [] rest
    else tokensGo (b :: cur) rest

def tokens (l : List Nat) : List (List Nat) :=
  tokensGo [] l

/-- Decimal digit fold for `parse::<i32>`. -/
def decDigitsCore : List Nat → Nat → Option Nat
  | [], acc => some acc
  | b :: rest, acc =>
    if 48 ≤ b ∧ b ≤ 57 then decDigitsCore rest (10 * acc + (b - 48))
    else none

/-- Nonempty all-decimal parse. -/
def decDigits (l : List Nat) : Option Nat :=
  if l = [] then none else decDigitsCore l 0

/-- `str::parse::<i32>`: optional sign, decimal digits, `i32` range check
(out-of-range is a parse error). -/
def parseI32 (l : List Nat) : Option Int :=
  match l with
  | 43 :: rest => (decDigits rest).bind fun n =>
      if n ≤ 2147483647 then some (n : Int) else none
  | 45 :: rest => (decDigits rest).bind fun n =>
      if n ≤ 2147483648 then some (-(n : Int)) else none
  | _ => (decDigits l).bind fun n =>
      if n ≤ 2147483647 then some (n : Int) else none

/-- `StatusInfo` (lib.rs 42-48), strings as UTF-8 bytes. -/
inductive StatusInfo where
  | response (code : Int) (reason : List Nat)
  | request (method : List Nat) (resource : List Nat)
deriving DecidableEq, Repr

/-- `GeneralInfo` (lib.rs 50-57). -/
structure GeneralInfo where
  status : StatusInfo
  headers : List (List Nat × List Nat)
deriving DecidableEq, Repr

/-- Outcome of `parse_status_line`: the source signature is
`Result<StatusInfo, Error>`, but two `unwrap`s can also panic — on a line
with no tokens (`split.nth(0).unwrap()`, stream.rs 558) and on a request line
whose method is not UTF-8 (stream.rs 571). -/
inductive ParseStatusResult where
  | ok (s : StatusInfo)
  | errNoStatus
  | panicked
deriving DecidableEq, Repr

/-- `parse_status_line` (stream.rs 555-577). -/
def parse_status_line (line : List Nat) : ParseStatusResult :=
  match tokens line with
  | [] => .panicked
  | method :: rest =>
    match rest with
    | [] => .errNoStatus
    | code :: rest2 =>
      if utf8Valid code then
        match parseI32 code with
        | some c =>
          match rest2 with
          | reason :: _ =>
            if utf8Valid reason then .ok (.response c reason) else .errNoStatus
          | [] => .errNoStatus
        | none =>
          if utf8Valid method then .ok (.request method code) else .panicked
      else .errNoStatus

/-- Unicode whitespace test of `str::trim`, restricted to the single-byte
(ASCII) range — the only whitespace the claims exercise; multi-byte Unicode
whitespace is outside this byte-level model. -/
def isWsByte (b : Nat) : Bool :=
  b == 9 || b == 10 || b == 11 || b == 12 || b == 13 || b == 32

/-- `str::trim` at the byte level. -/
def trimBytes (l : List Nat) : List Nat :=
  ((l.dropWhile isWsByte).reverse.dropWhile isWsByte).reverse

/-- `parse_header` (stream.rs 579-596): split at the first `':'`; the
`starts_with(&[b' '])` test is on the slice that still begins with the `':'`
itself, exactly as in the source (it can never hold); both sides must be
UTF-8, the value is trimmed; `None` skips the line. -/
def parse_header (line : List Nat) : Option (List Nat × List Nat) :=
  match line.findIdx? (fun b => b == 58) with
  | none => none
  | some idx =>
    let header := line.take idx
    let val :=
      if [32].isPrefixOf (line.drop idx) then line.drop (idx + 2)
      else line.drop (idx + 1)
    if utf8Valid header then
      if utf8Valid val then some (header, trimBytes val) else none
    else none

/-- The header-block loop of `process_lines` (stream.rs 535-547) applied to
the already-read lines of a block (each line parsed, parse failures skipped,
parsed pairs inserted into the map). -/
def process_header_lines (lines : List (List Nat)) : List (List Nat × List Nat) :=
  lines.foldl
    (fun m line =>
      match parse_header line with
      | some kv => insertHM kv.1 kv.2 m
      | none => m)
    []

/-! ## Client URL handling (`parse_url`, client/request.rs 310-368)

Byte-level model; the source's `str::find` character indices coincide with
byte indices for the ASCII delimiters (`'@'`, `':'`, `'/'`) involved. -/

/-- Parsed URL (client/request.rs 38-45). -/
structure Url where
  https : Bool
  credentials : Option (List Nat × List Nat)
  host : List Nat
  resource : List Nat
deriving DecidableEq, Repr

/-- `parse_url` (client/request.rs 310-368): strip the scheme, extract
`user:pass@` credentials (a lone `@` without `:` before it is
`InvalidCredentialsInURL`), split host from resource at the first `'/'`
(default resource `"/"`), and append the default port when the host carries
none. -/
def parse_url (url : List Nat) : Except Error Url :=
  let https := (bytesOfString "https://").isPrefixOf url
  let url1 :=
    if https then url.drop 8
    else if (bytesOfString "http://").isPrefixOf url then url.drop 7
    else url
  let credsStep : Except Error (Option (List Nat × List Nat) × List Nat) :=
    match url1.findIdx? (fun b => b == 64) with
    | some idx =>
      let preSplit := url1.take idx
      match preSplit.findIdx? (fun b => b == 58) with
      | some c =>
        .ok (some (preSplit.take c, preSplit.drop (c + 1)), url1.drop (idx + 1))
      | none => .error .invalidCredentialsInURL
    | none => .ok (none, url1)
  match credsStep with
  | .error e => .error e
  | .ok (credentials, url2) =>
    let hostRes :=
      match url2.findIdx? (fun b => b == 47) with
      | some idx => (url2.take idx, url2.drop idx)
      | none => (url2, [47])
    let finHost :=
      if hostRes.1.contains 58 then hostRes.1
      else hostRes.1 ++ (if https then bytesOfString ":443" else bytesOfString ":80")
    .ok { https := https, credentials := credentials,
          host := finHost, resource := hostRes.2 }

/-! ## Client redirect controller (`ClientRequest`, client/request.rs)

The fields of `ClientRequest` that take part in the redirect decision
(client/request.rs 269-301); the connection, head generation and body I/O of
`send` are not consulted by that decision and are modelled by the response
script consumed one response per hop. -/

structure ClientRequestM where
  method : List Nat
  url : Url
  max_redirects : Nat
  redirects : List (Bool × List Nat × List Nat)
deriving DecidableEq, Repr

/-- `ClientRequest::new` (client/request.rs 69-88): parse the URL and start
with `max_redirects = 5` and no recorded hops. -/
def ClientRequestM.new (method url : List Nat) : Except Error ClientRequestM :=
  match parse_url url with
  | .error e => .error e
  | .ok u => .ok { method := method, url := u, max_redirects := 5, redirects := [] }

/-- A received response as the redirect logic sees it: the parsed status code
(`0` when the head carried no response status) and the header map. -/
structure RespM where
  code : Int
  headers : List (List Nat × List Nat)
deriving DecidableEq, Repr

/-- The redirect decision at the tail of `ClientRequest::send`
(client/request.rs 269-301): a 3xx status first checks the hop count against
`max_redirects`, then requires a `Location` header, records the old
`(https, host, resource)` hop, downgrades the method to GET unless GET/HEAD,
and re-targets at `host ++ location.trim()` re-parsed as a URL (credentials
are kept).  `inl` is the re-issued request, `inr` the final response. -/
def redirect_step (req : ClientRequestM) (resp : RespM) :
    Except Error (ClientRequestM ⊕ RespM) :=
  if 300 ≤ resp.code ∧ resp.code ≤ 308 then
    if req.redirects.length = req.max_redirects then .error .maxRedirectsHit
    else
      match lookupHM (bytesOfString "Location") resp.headers with
      | some location =>
        let redirects := req.redirects ++ [(req.url.https, req.url.host, req.url.resource)]
        let method :=
          if req.method = bytesOfString "GET" ∨ req.method = bytesOfString "HEAD"
          then req.method else bytesOfString "GET"
        let new_host := req.url.host ++ trimBytes location
        match parse_url new_host with
        | .error e => .error e
        | .ok u =>
          .ok (.inl { method := method,
                      url := { https := u.https, credentials := req.url.credentials,
                               host := u.host, resource := u.resource },
                      max_redirects := req.max_redirects,
                      redirects := redirects })
      | none => .error .noLocationHeader
  else .ok (.inr resp)

/-- `send` against a scripted server: each hop consumes one response; an
exhausted script stands for a connection that cannot be opened. -/
def send_script : List RespM → ClientRequestM → Except Error RespM
  | [], _ => .error .connectionFailed
  | r :: rest, req =>
    match redirect_step req r with
    | .error e => .error e
    | .ok (.inr final) => .ok final
    | .ok (.inl req2) => send_script rest req2

/-! ## Client response construction (`ClientResponse::new`,
client/response.rs 22-51)

The codec stack (`Chunked`/`Compressed`) and `read_to_end_until` are
abstracted to the decoded byte sequence the stream would deliver; what the
claim concerns is the guard deciding whether that read happens at all. -/

structure ClientResponseM where
  info : GeneralInfo
  body : List Nat
deriving DecidableEq, Repr

/-- `ClientResponse::new` (client/response.rs 22-51): the body is read only
when the status is a response with `code <= 300 || code >= 308`; the
hop-by-hop `Transfer-Encoding` header is removed afterwards. -/
def ClientResponseM.new (info : GeneralInfo) (decoded : List Nat) : ClientResponseM :=
  let body : List Nat :=
    match info.status with
    | .response code _ => if code ≤ 300 ∨ 308 ≤ code then decoded else []
    | .request _ _ => []
  { info := { status := info.status,
              headers := removeHM (bytesOfString "Transfer-Encoding") info.headers },
    body := body }

/-! ## Server: status table and 100-continue negotiation
(`ServerResponse::new` server/response.rs 76-144, `Server::run`
server/mod.rs 165-213) -/

/-- The fixed code → reason table of `ServerResponse::new`
(server/response.rs 77-133); `none` is the `HTTPStatusCodeNotRecognized`
fall-through. -/
def statusReasonTable (status : Int) : Option String :=
  if status = 100 then some "Continue"
  else if status = 101 then some "Switching Protocols"
  else if status = 103 then some "Early Hints"
  else if status = 200 then some "OK"
  else if status = 201 then some "Created"
  else if status = 202 then some "Accepted"
  else if status = 203 then some "Non-Authoritative Information"
  else if status = 204 then some "No Content"
  else if status = 205 then some "Reset Content"
  else if status = 206 then some "Partial Content"
  else if status = 300 then some "Multiple Choices"
  else if status = 301 then some "Moved Permanently"
  else if status = 302 then some "Found"
  else if status = 303 then some "See Other"
  else if status = 304 then some "Not Modified"
  else if status = 305 then some "Use Proxy"
  else if status = 306 then some "Switch Proxy"
  else if status = 307 then some "Temporary Redirect"
  else if status = 308 then some "Permanent Redirect"
  else if status = 400 then some "Bad Request"
  else if status = 401 then some "Unauthorized"
  else if status = 402 then some "Payment Required"
  else if status = 403 then some "Forbidden"
  else if status = 404 then some "Not Found"
  else if status = 405 then some "Method Not Allowed"
  else if status = 406 then some "Not Acceptable"
  else if status = 407 then some "Proxy Authentication Required"
  else if status = 408 then some "Request Timeout"
  else if status = 409 then some "Conflict"
  else if status = 410 then some "Gone"
  else if status = 411 then some "Length Required"
  else if status = 412 then some "Precondition Failed"
  else if status = 413 then some "Payload Too Large"
  else if status = 414 then some "URI Too Long"
  else if status = 415 then some "Unsupported Media Type"
  else if status = 416 then some "Range Not Satisfiable"
  else if status = 417 then some "Expectation Failed"
  else if status = 418 then some "I'm a teapot"
  else if status = 421 then some "Misdirected Request"
  else if status = 425 then some "Too Early"
  else if status = 426 then some "Upgrade Required"
  else if status = 428 then some "Precondition Required"
  else if status = 429 then some "Too Many Requests"
  else if status = 431 then some "Request Header Fields Too Large"
  else if status = 451 then some "Unavailable For Legal Reasons"
  else if status = 500 then some "Internal Server Error"
  else if status = 501 then some "Not Implemented"
  else if status = 502 then some "Bad Gateway"
  else if status = 503 then some "Service Unavailable"
  else if status = 504 then some "Gateway Timeout"
  else if status = 505 then some "HTTP Version Not Supported"
  else if status = 506 then some "Variant Also Negotiates"
  else if status = 510 then some "Not Extended"
  else if status = 511 then some "Network Authentication Required"
  else none

/-- An expectation check (`ExpectHandler`, server/mod.rs 44): status code and
optional message, or an error that aborts the connection. -/
abbrev ExpectHandlerM := GeneralInfo → Except Error (Int × Option (List Nat))

/-- The check loop of `Server::run` (server/mod.rs 177-187): checks run in
registration order, the first non-100 code (with its message) short-circuits;
all-100 yields `(100, none)` (`continue_code`/`continue_msg` initial
values). -/
def run_expect_checks (handlers : List ExpectHandlerM) (info : GeneralInfo) :
    Except Error (Int × Option (List Nat)) :=
  match handlers with
  | [] => .ok (100, none)
  | h :: rest =>
    match h info with
    | .error e => .error e
    | .ok (code, message) =>
      if code ≠ 100 then .ok (code, message) else run_expect_checks rest info

/-- Observable outcome of one accepted connection's Expect handling:
the interim response written before (or instead of) dispatch, as
`(status code, optional message body)`, and whether `process_request`
(request-body read + route dispatch) ran. -/
structure ContinueOutcome where
  interim : Option (Int × Option (List Nat))
  proceeded : Bool
deriving DecidableEq, Repr

/-- The Expect/100-continue branch of `Server::run` (server/mod.rs 174-213):
with an `Expect` header and a non-empty check list, run the checks, build
`ServerResponse::new(code)` (an unrecognized code aborts here with
`HTTPStatusCodeNotRecognized`); code 100 writes `100 Continue` and proceeds
to `process_request`, any other code writes that response (message as body)
and skips body reading and dispatch; without `Expect` or without checks,
`process_request` runs directly with nothing written beforehand. -/
def handle_expect (info : GeneralInfo) (handlers : List ExpectHandlerM) :
    Except Error ContinueOutcome :=
  if (lookupHM (bytesOfString "Expect") info.headers).isSome && !handlers.isEmpty then
    match run_expect_checks handlers info with
    | .error e => .error e
    | .ok (code, message) =>
      match statusReasonTable code with
      | none => .error .httpStatusCodeNotRecognized
      | some _ =>
        if code = 100 then .ok { interim := some (100, none), proceeded := true }
        else .ok { interim := some (code, message), proceeded := false }
  else .ok { interim := none, proceeded := true }

/-! ## Outbound entity headers and the compressed write path
(`gen_head` client/request.rs 406-445, `process_request` server/mod.rs
220-281, `Gzip::En` write stream.rs 315-327, `write_all_until` stream.rs
454-468) -/

/-- The mutually exclusive framing headers an outbound message carries. -/
structure EntityHeaders where
  contentLength : Option Nat
  transferChunked : Bool
  contentEncodingGzip : Bool
deriving DecidableEq, Repr

/-- The entity-header block of `gen_head` (client/request.rs 428-441): with
no chunk size and a body, `Content-Length` is the RAW body byte count
(`body_vec.len()` before any compression); with a chunk size,
`Transfer-Encoding: chunked`; `Content-Encoding: gzip` whenever compression
is flagged. -/
def gen_head_entity (chunk_size : Option Nat) (body : Option (List Nat))
    (compression : Bool) : EntityHeaders :=
  { contentLength :=
      match chunk_size, body with
      | none, some b => some b.length
      | _, _ => none,
    transferChunked := chunk_size.isSome,
    contentEncodingGzip := compression }

/-- The header injection of the server's `process_request`
(server/mod.rs 227-239) for a handler response carrying a body: same raw
`body.len()` for `Content-Length`; gzip is advertised when the request
accepts it and a compression level is set. -/
def process_request_entity (chunk_size : Option Nat) (body : List Nat)
    (acceptGzip : Bool) (compression_level : Option Nat) : EntityHeaders :=
  { contentLength := if chunk_size.isSome then none else some body.length,
    transferChunked := chunk_size.isSome,
    contentEncodingGzip := acceptGzip && compression_level.isSome }

/-- One `write` call through `Gzip::En` (stream.rs 315-327): the source reads
the encoder with `read_exact(&mut buffer)` into a freshly created EMPTY
vector — which reads zero bytes — and then writes that empty buffer to the
layer beneath, so the call consumes and emits nothing and returns `0`
regardless of the input. -/
def gzip_en_write (_buf : List Nat) : Nat :=
  let buffer : List Nat := []
  buffer.length

/-- `write_all_until` (stream.rs 454-468) over an abstract writer `writeStep`
returning the per-call byte count: loops until the request slice is empty and
fails with an `UnexpectedEof` I/O error on a zero-byte write.  Fuel
`req.length` bounds the iterations (each successful step consumes at least
one byte; the fuel-out value is never reached). -/
def write_all_until_go (writeStep : List Nat → Nat) : Nat → List Nat → Except Error Unit
  | _, [] => .ok ()
  | 0, _ :: _ => .ok ()
  | fuel + 1, b :: rest =>
    let n := writeStep (b :: rest)
    if n = 0 then .error (.io .unexpectedEof)
    else write_all_until_go writeStep fuel ((b :: rest).drop n)

def write_all_until (writeStep : List Nat → Nat) (req : List Nat) : Except Error Unit :=
  write_all_until_go writeStep req.length req

/-! ## Helper lemmas: hex rendering round-trips through the size parser -/

/-- Membership in a byte list produced by `toHexGo`: every byte is either
carried over from the accumulator or is a lowercase hex digit byte. -/
theorem toHexGo_mem : ∀ fuel n acc b, b ∈ toHexGo fuel n acc →
    b ∈ acc ∨ (48 ≤ b ∧ b ≤ 57) ∨ (97 ≤ b ∧ b ≤ 102) := by
  intro fuel
  induction fuel with
  | zero => intro n acc b hb; exact Or.inl hb
  | succ f ih =>
    intro n acc b hb
    by_cases hn : n = 0
    · simp only [toHexGo, hn, if_pos rfl] at hb
      exact Or.inl hb
    · simp only [toHexGo, hn, if_neg hn] at hb
      rcases ih (n / 16) (hexChar (n % 16) :: acc) b hb with h | h
      · rcases List.mem_cons.mp h with h | h
        · subst h
          right
          have hm : n % 16 < 16 := Nat.mod_lt _ (by omega)
          unfold hexChar
          split <;> omega
        · exact Or.inl h
      · exact Or.inr h

/-- `toHexGo` never shrinks a non-empty accumulator away. -/
theorem toHexGo_ne_nil : ∀ fuel n acc, acc ≠ [] → toHexGo fuel n acc ≠ [] := by
  intro fuel
  induction fuel with
  | zero => intro n acc h; exact h
  | succ f ih =>
    intro n acc h
    by_cases hn : n = 0
    · simpa [toHexGo, hn] using h
    · simp only [toHexGo, if_neg hn]
      exact ih (n / 16) _ (by simp)

/-- `hexBytes` is never empty. -/
theorem hexBytes_ne_nil (n : Nat) : hexBytes n ≠ [] := by
  unfold hexBytes
  by_cases hn : n = 0
  · simp [hn]
  · simp only [if_neg hn]
    cases n with
    | zero => exact absurd rfl hn
    | succ m =>
      show toHexGo (m + 1) (m + 1) [] ≠ []
      simp only [toHexGo, if_neg hn]
      exact toHexGo_ne_nil _ _ _ (by simp)

/-- Every byte of `hexBytes n` is a lowercase hex digit byte. -/
theorem hexBytes_mem (n b : Nat) (hb : b ∈ hexBytes n) :
    (48 ≤ b ∧ b ≤ 57) ∨ (97 ≤ b ∧ b ≤ 102) := by
  unfold hexBytes at hb
  by_cases hn : n = 0
  · simp [hn] at hb
    omega
  · simp only [if_neg hn] at hb
    rcases toHexGo_mem n n [] b hb with h | h
    · simp at h
    · exact h

/-- Digit-count bound: `n < 16 ^ k` yields at most `k` emitted digits. -/
theorem toHexGo_length : ∀ fuel n acc k, n < 16 ^ k →
    (toHexGo fuel n acc).length ≤ acc.length + k := by
  intro fuel
  induction fuel with
  | zero => intro n acc k _; simp [toHexGo]
  | succ f ih =>
    intro n acc k hk
    by_cases hn : n = 0
    · simp [toHexGo, hn]
    · simp only [toHexGo, if_neg hn]
      cases k with
      | zero => simp at hk; omega
      | succ k' =>
        have hdiv : n / 16 < 16 ^ k' :=
          Nat.div_lt_of_lt_mul (by rw [← pow_succ']; exact hk)
        have h2 := ih (n / 16) (hexChar (n % 16) :: acc) k' hdiv
        simp only [List.length_cons] at h2
        omega

/-- For `usize`-ranged `n` the hex rendering is at most 16 bytes. -/
theorem hexBytes_length_le (n : Nat) (hn : n < 2 ^ 64) :
    (hexBytes n).length ≤ 16 := by
  unfold hexBytes
  by_cases h : n = 0
  · simp [h]
  · simp only [if_neg h]
    have h16 : n < 16 ^ 16 := lt_of_lt_of_eq hn (by norm_num)
    simpa using toHexGo_length n n [] 16 h16

/-- A hex digit byte round-trips through `hexDigitVal`. -/
theorem hexDigitVal_hexChar (d : Nat) (hd : d < 16) :
    hexDigitVal (hexChar d) = some d := by
  unfold hexChar hexDigitVal
  by_cases h : d < 10
  · simp only [if_pos h]
    rw [if_pos (by omega)]
    congr 1
    omega
  · simp only [if_neg h]
    rw [if_neg (by omega), if_pos (by omega)]
    congr 1
    omega

/-- `toHexGo` on zero is the accumulator, whatever the fuel. -/
theorem toHexGo_zero (fuel : Nat) (acc : List Nat) : toHexGo fuel 0 acc = acc := by
  cases fuel <;> simp [toHexGo]

/-- Core round-trip: parsing the digits accumulated by `toHexGo` continues
into the accumulator with value `n`. -/
theorem hexParseCore_toHexGo : ∀ fuel n acc, n < 16 ^ fuel →
    hexParseCore (toHexGo fuel n acc) 0 = hexParseCore acc n := by
  intro fuel
  induction fuel with
  | zero => intro n acc h; interval_cases n; simp [toHexGo_zero]
  | succ f ih =>
    intro n acc h
    by_cases hn : n = 0
    · subst hn; simp [toHexGo_zero]
    · simp only [toHexGo, if_neg hn]
      have hdiv : n / 16 < 16 ^ f :=
        Nat.div_lt_of_lt_mul (by rw [← pow_succ']; exact h)
      rw [ih (n / 16) (hexChar (n % 16) :: acc) hdiv]
      simp only [hexParseCore, hexDigitVal_hexChar (n % 16) (Nat.mod_lt _ (by omega))]
      rw [Nat.div_add_mod]

/-- `{:x}` rendering parses back via `from_str_radix(_, 16)` for every
`usize` value. -/
theorem hexParse_hexBytes (n : Nat) (hn : n < 2 ^ 64) :
    hexParse (hexBytes n) = some n := by
  by_cases h0 : n = 0
  · subst h0; decide
  · have hne := hexBytes_ne_nil n
    have hhead : hexBytes n ≠ [] → (hexBytes n).head? ≠ some 43 := by
      intro h
      cases hx : hexBytes n with
      | nil => exact absurd hx h
      | cons b r =>
        have hb : b ∈ hexBytes n := by rw [hx]; exact List.mem_cons_self _ _
        have := hexBytes_mem n b hb
        simp only [List.head?]
        intro hc
        have : b = 43 := by injection hc
        omega
    rw [hexParse, if_neg hne, if_neg (hhead hne)]
    have hcore : hexParseCore (hexBytes n) 0 = some n := by
      unfold hexBytes
      rw [if_neg h0]
      have h16 : n < 16 ^ n := Nat.lt_pow_self (by norm_num) n
      rw [hexParseCore_toHexGo n n [] h16]
      simp [hexParseCore]
    rw [hcore]
    show usizeCk n = some n
    have hn' : n < 18446744073709551616 := lt_of_lt_of_eq hn (by norm_num)
    simp [usizeCk, hn']

/-! ## Helper lemmas: line reading and frame decoding -/

/-- `read_until(b'\n')` stops exactly at the CRLF terminating an LF-free
line, provided the byte cap is not hit first. -/
theorem splitAtLF_crlf : ∀ (line : List Nat) (cap : Nat) (rest : List Nat),
    10 ∉ line → line.length + 2 ≤ cap →
    splitAtLF cap (line ++ 13 :: 10 :: rest) = (line ++ [13, 10], rest) := by
  intro line
  induction line with
  | nil =>
    intro cap rest _ hcap
    match cap, hcap with
    | c + 2, _ =>
      simp only [List.nil_append, splitAtLF]
      rw [if_neg (by omega)]
      have : splitAtLF (c + 1) (10 :: rest) = ([10], rest) := by
        simp [splitAtLF]
      simp [this]
  | cons b l ih =>
    intro cap rest hlf hcap
    match cap, hcap with
    | c + 1, hc2 =>
      have hb : b ≠ 10 := fun h => hlf (h ▸ List.mem_cons_self _ _)
      have hstep : splitAtLF (c + 1) ((b :: l) ++ 13 :: 10 :: rest)
          = (b :: (splitAtLF c (l ++ 13 :: 10 :: rest)).1,
             (splitAtLF c (l ++ 13 :: 10 :: rest)).2) := by
        show splitAtLF (c + 1) (b :: (l ++ 13 :: 10 :: rest)) = _
        simp only [splitAtLF, if_neg hb]
      have hcap' : l.length + 2 ≤ c := by
        simp only [List.length_cons] at hc2; omega
      rw [hstep, ih c rest (fun h => hlf (List.mem_cons_of_mem _ h)) hcap']
      simp

/-- `read_line` on an LF-free line followed by CRLF strips the terminator and
leaves the rest. -/
theorem read_line_crlf (line : List Nat) (cap : Nat) (rest : List Nat)
    (hlf : 10 ∉ line) (hcap : line.length + 2 ≤ cap) :
    read_line cap (line ++ [13, 10] ++ rest) = .ok (line, rest) := by
  have hsplit := splitAtLF_crlf line cap rest hlf hcap
  have heq : line ++ [13, 10] ++ rest = line ++ 13 :: 10 :: rest := by simp
  unfold read_line
  rw [heq, hsplit]
  simp [List.reverse_append]

/-- Reading the size line of a well-formed frame header yields the declared
size and the bytes after the CRLF, for any `usize`-ranged size. -/
theorem read_chunk_size_frame (n : Nat) (hn : n < 2 ^ 64) (tail : List Nat) :
    read_chunk_size (hexBytes n ++ [13, 10] ++ tail) = .ok (n, tail) := by
  unfold read_chunk_size
  have hlf : 10 ∉ hexBytes n := fun h => by have := hexBytes_mem n 10 h; omega
  have hcap : (hexBytes n).length + 2 ≤ 128 := by
    have := hexBytes_length_le n hn; omega
  rw [read_line_crlf (hexBytes n) 128 tail hlf hcap]
  simp only [if_neg (hexBytes_ne_nil n)]
  have htake : (hexBytes n).takeWhile (fun b => decide (b ≠ 59)) = hexBytes n := by
    apply List.takeWhile_eq_self_iff.mpr
    intro b hb
    have := hexBytes_mem n b hb
    simp only [decide_eq_true_eq]
    omega
  rw [htake, hexParse_hexBytes n hn]

/-- A chunk's trailing CRLF is consumed and accepted. -/
theorem read_line_ending_crlf (w : List Nat) :
    read_line_ending (13 :: 10 :: w) = .ok (true, w) := rfl

/-- The zero-size terminator's size line. -/
theorem read_chunk_size_zero_term :
    read_chunk_size [48, 13, 10, 13, 10] = .ok (0, [13, 10]) := rfl

/-- Decoding the framed bytes of a list of non-empty, `usize`-ranged chunk
payloads followed by the zero-size terminator accumulates exactly their
concatenation; one unit of fuel per frame plus one for the terminator. -/
theorem decode_frames : ∀ (cs : List (List Nat)) (fuel : Nat) (acc : List Nat),
    cs.length < fuel → (∀ c ∈ cs, c ≠ [] ∧ c.length < 2 ^ 64) →
    decodeChunkedLoop fuel (frames cs ++ write_to_payload []) acc =
      .ok (acc ++ cs.flatten) := by
  intro cs
  induction cs with
  | nil =>
    intro fuel acc hfuel _
    match fuel, hfuel with
    | f + 1, _ =>
      show decodeChunkedLoop (f + 1) ([] ++ write_to_payload []) acc = _
      have hz : ([] : List Nat) ++ write_to_payload [] = [48, 13, 10, 13, 10] := by decide
      rw [hz]
      simp only [decodeChunkedLoop, read_chunk_size_zero_term]
      simp [read_line_ending]
  | cons c cs' ih =>
    intro fuel acc hfuel hc
    match fuel, hfuel with
    | f + 1, hf2 =>
      obtain ⟨hcne, hclen⟩ := hc c (List.mem_cons_self _ _)
      have hinput : frames (c :: cs') ++ write_to_payload [] =
          hexBytes c.length ++ [13, 10] ++
            (c ++ ([13, 10] ++ (frames cs' ++ write_to_payload []))) := by
        simp [frames, write_to_payload, List.append_assoc]
      rw [hinput]
      have hne0 : c.length ≠ 0 := fun h => hcne (List.eq_nil_of_length_eq_zero h)
      have hlen : ¬ (c ++ ([13, 10] ++ (frames cs' ++ write_to_payload []))).length < c.length := by
        simp [List.length_append]
      have hdrop : (c ++ ([13, 10] ++ (frames cs' ++ write_to_payload []))).drop c.length =
          13 :: 10 :: (frames cs' ++ write_to_payload []) := by
        rw [List.drop_left]; rfl
      have htake : (c ++ ([13, 10] ++ (frames cs' ++ write_to_payload []))).take c.length = c := by
        rw [List.take_left]
      simp only [decodeChunkedLoop, read_chunk_size_frame c.length hclen, hne0, hlen,
        if_false, hdrop, read_line_ending_crlf, htake, if_true]
      have hfuel' : cs'.length < f := by
        simp only [List.length_cons] at hf2; omega
      rw [ih f (acc ++ c) hfuel' (fun d hd => hc d (List.mem_cons_of_mem _ hd))]
      simp [List.append_assoc]

/-! ## Helper lemmas: the writer's drain loop -/

/-- The emitted full chunks and the remaining buffer reassemble the input. -/
theorem cwDrainGo_join (S : Nat) : ∀ fuel b, b.length ≤ fuel →
    (cwDrainGo S fuel b).1.flatten ++ (cwDrainGo S fuel b).2 = b := by
  intro fuel
  induction fuel with
  | zero =>
    intro b hb
    have : b = [] := List.eq_nil_of_length_eq_zero (Nat.le_zero.mp hb)
    subst this
    simp [cwDrainGo]
  | succ f ih =>
    intro b hb
    by_cases h : 0 < S ∧ S ≤ b.length
    · simp only [cwDrainGo, if_pos h]
      have hrec : (b.drop S).length ≤ f := by
        simp only [List.length_drop]
        omega
      simp only [List.flatten_cons, List.append_assoc]
      rw [ih (b.drop S) hrec]
      exact List.take_append_drop S b
    · simp [cwDrainGo, if_neg h]

/-- Every emitted full chunk has exactly the configured size. -/
theorem cwDrainGo_chunk_len (S : Nat) : ∀ fuel b c, c ∈ (cwDrainGo S fuel b).1 →
    c.length = S := by
  intro fuel
  induction fuel with
  | zero => intro b c hc; simp [cwDrainGo] at hc
  | succ f ih =>
    intro b c hc
    by_cases h : 0 < S ∧ S ≤ b.length
    · simp only [cwDrainGo, if_pos h] at hc
      rcases List.mem_cons.mp hc with h1 | h1
      · subst h1
        simp only [List.length_take]
        omega
      · exact ih (b.drop S) c h1
    · simp [cwDrainGo, if_neg h] at hc

/-- The buffer left for `flush` is strictly shorter than the chunk size. -/
theorem cwDrainGo_rest_lt (S : Nat) (hS : 0 < S) : ∀ fuel b, b.length ≤ fuel →
    (cwDrainGo S fuel b).2.length < S := by
  intro fuel
  induction fuel with
  | zero =>
    intro b hb
    have : b = [] := List.eq_nil_of_length_eq_zero (Nat.le_zero.mp hb)
    subst this
    simpa [cwDrainGo] using hS
  | succ f ih =>
    intro b hb
    by_cases h : 0 < S ∧ S ≤ b.length
    · simp only [cwDrainGo, if_pos h]
      apply ih
      simp only [List.length_drop]
      omega
    · simp only [cwDrainGo, if_neg h]
      omega

/-- The chunk payloads of a `write` + `flush` run: all non-empty, all within
the `usize` range, and they concatenate to the payload. -/
theorem chunksAll_props (S : Nat) (P : List Nat) (hS : 0 < S) (hS64 : S < 2 ^ 64) :
    (∀ c ∈ chunksAll S P, c ≠ [] ∧ c.length < 2 ^ 64) ∧
      (chunksAll S P).flatten = P := by
  have hjoin := cwDrainGo_join S P.length P le_rfl
  have hrest := cwDrainGo_rest_lt S hS P.length P le_rfl
  simp only [chunksAll, cwDrain]
  constructor
  · intro c hc
    rcases List.mem_append.mp hc with h | h
    · have hlen := cwDrainGo_chunk_len S P.length P c h
      refine ⟨fun hnil => ?_, by omega⟩
      rw [hnil] at hlen
      simp at hlen
      omega
    · by_cases hemp : (cwDrainGo S P.length P).2 = []
      · simp [hemp] at h
      · simp only [if_neg hemp, List.mem_singleton] at h
        subst h
        exact ⟨hemp, by omega⟩
  · by_cases hemp : (cwDrainGo S P.length P).2 = []
    · simp only [if_pos hemp, List.append_nil]
      rw [hemp, List.append_nil] at hjoin
      exact hjoin
    · simp only [if_neg hemp, List.flatten_append, List.flatten_cons,
        List.flatten_nil, List.append_nil]
      exact hjoin

/-- Each frame contributes at least one wire byte. -/
theorem frames_length_ge (cs : List (List Nat)) : cs.length ≤ (frames cs).length := by
  induction cs with
  | nil => simp [frames]
  | cons c cs' ih =>
    have hwp : 1 ≤ (write_to_payload c).length := by
      unfold write_to_payload
      have := hexBytes_ne_nil c.length
      cases hx : hexBytes c.length with
      | nil => exact absurd hx this
      | cons _ _ => simp [hx]
    simp only [frames, List.map_cons, List.flatten_cons, List.length_append,
      List.length_cons] at ih ⊢
    omega

/-- A byte run not starting with `"\n"` or `"\r\n"` is rejected (or runs out)
when a chunk's trailing line ending is validated. -/
theorem read_line_ending_bad (w : List Nat)
    (h1 : w.head? ≠ some 10) (h2 : w.head? = some 13 → w.tail.head? ≠ some 10) :
    read_line_ending w = .error .eof ∨ ∃ t, read_line_ending w = .ok (false, t) := by
  cases w with
  | nil => exact Or.inl rfl
  | cons b t =>
    by_cases hb : b = 13
    · subst hb
      cases t with
      | nil => exact Or.inl rfl
      | cons b2 t2 =>
        refine Or.inr ⟨t2, ?_⟩
        have hb2 : b2 ≠ 10 := by
          intro h
          exact h2 rfl (by simp [h])
        simp [read_line_ending, hb2]
    · refine Or.inr ⟨t, ?_⟩
      have hbne : b ≠ 10 := by
        intro h
        exact h1 (by simp [h])
      simp [read_line_ending, hb, hbne]

/-! ## C1 -/

/-- **C1.** Chunked codec round-trip: for every payload `P` and positive
`usize` chunk size `S`, decoding the frames emitted by the chunked writer via
`write` then `flush` (followed by the zero-size terminator frame that ends a
chunked body on the wire) yields exactly `P`; and every frame whose declared
hex size is not followed by exactly that many bytes and a CRLF makes the
chunked reader's decode fail with a chunk/decode error — the decoder is a
total function, so it can neither succeed nor loop on such input.  (With
`chunk_size = 0` the source writer's emit loop does not terminate, so the
positive bound is inherent; `S < 2^64` is the `usize` range.) -/
theorem chunked_roundtrip_and_mismatch_c1 :
    (∀ S P, 0 < S → S < 2 ^ 64 →
      decodeChunked (chunkedWire S P ++ write_to_payload []) = .ok P) ∧
    (∀ n data post, n < 2 ^ 64 → data.length = n →
      post.head? ≠ some 10 → (post.head? = some 13 → post.tail.head? ≠ some 10) →
      ∃ e, decodeChunked (hexBytes n ++ [13, 10] ++ data ++ post) = .error e) := by
  constructor
  · intro S P hS hS64
    obtain ⟨hcs, hflat⟩ := chunksAll_props S P hS hS64
    unfold decodeChunked chunkedWire
    have hfuel : (chunksAll S P).length <
        (frames (chunksAll S P) ++ write_to_payload []).length + 1 := by
      have := frames_length_ge (chunksAll S P)
      simp only [List.length_append]
      omega
    rw [decode_frames (chunksAll S P) _ [] hfuel hcs]
    rw [hflat]
    rfl
  · intro n data post hn hdata h1 h2
    unfold decodeChunked
    have hgrp : hexBytes n ++ [13, 10] ++ data ++ post
        = hexBytes n ++ [13, 10] ++ (data ++ post) := by
      simp [List.append_assoc]
    rw [hgrp]
    simp only [decodeChunkedLoop, read_chunk_size_frame n hn (data ++ post)]
    by_cases hn0 : n = 0
    · subst hn0
      have hd : data = [] := List.eq_nil_of_length_eq_zero hdata
      subst hd
      simp only [List.nil_append, if_pos rfl]
      rcases read_line_ending_bad post h1 h2 with h | ⟨t, h⟩
      · exact ⟨.eof, by rw [h]; simp⟩
      · exact ⟨.chunkDecode, by rw [h]; simp⟩
    · rw [if_neg hn0]
      have hlen : ¬ (data ++ post).length < n := by
        simp only [List.length_append]
        omega
      rw [if_neg hlen]
      have hdrop : (data ++ post).drop n = post := by
        rw [← hdata, List.drop_left]
      rw [hdrop]
      rcases read_line_ending_bad post h1 h2 with h | ⟨t, h⟩
      · exact ⟨.eof, by rw [h]⟩
      · exact ⟨.chunkDecode, by rw [h]; simp⟩

/-- Witness for C1 at concrete inputs: a 5-byte payload at chunk size 3
round-trips, and a frame declaring 2 bytes whose data run is followed by a
non-CRLF byte fails to decode. -/
theorem chunked_roundtrip_and_mismatch_c1_witness :
    decodeChunked (chunkedWire 3 [1, 2, 3, 4, 5] ++ write_to_payload []) =
      .ok [1, 2, 3, 4, 5] ∧
    ∃ e, decodeChunked (hexBytes 2 ++ [13, 10] ++ [65, 66] ++ [67, 68]) = .error e :=
  ⟨chunked_roundtrip_and_mismatch_c1.1 3 [1, 2, 3, 4, 5] (by decide) (by norm_num),
   chunked_roundtrip_and_mismatch_c1.2 2 [65, 66] [67, 68] (by norm_num) (by decide)
     (by decide) (by decide)⟩

/-! ## C2 -/

/-- **C2.** Deadline invariant for every governed read and write: with a
deadline `(absolute_expiry, last_refresh)` and `now - last_refresh ≥ 250` ms,
the operation fails with the timeout-tagged I/O error when
`absolute_expiry ≤ now`, and otherwise sets the socket's OS-level timeout to
`absolute_expiry - now` and updates the refresh stamp to `now` before the
I/O; under 250 ms neither the check nor the refresh happens; with no deadline
no timeout is ever applied. -/
theorem deadline_governor_c2 :
    (∀ now line reset io written, 250 ≤ now - reset → line ≤ now →
      read_until now (some (line, reset)) io = .error (.io .timedOut) ∧
      write_until now (some (line, reset)) written = .error (.io .timedOut)) ∧
    (∀ now line reset n written, 250 ≤ now - reset → now < line →
      read_until now (some (line, reset)) (.bytes n) =
        .ok (n, .set (line - now), some (line, now)) ∧
      write_until now (some (line, reset)) written =
        .ok (written, .set (line - now), some (line, now))) ∧
    (∀ now line reset n written, now - reset < 250 →
      read_until now (some (line, reset)) (.bytes n) =
        .ok (n, .keep, some (line, reset)) ∧
      write_until now (some (line, reset)) written =
        .ok (written, .keep, some (line, reset))) ∧
    (∀ now n written,
      read_until now none (.bytes n) = .ok (n, .keep, none) ∧
      write_until now none written = .ok (written, .keep, none)) := by
  refine ⟨?_, ?_, ?_, ?_⟩
  · intro now line reset io written h250 hexp
    exact ⟨by simp [read_until, h250, hexp], by simp [write_until, h250, hexp]⟩
  · intro now line reset n written h250 hlt
    have hni : ¬ line ≤ now := by omega
    exact ⟨by simp [read_until, h250, hni], by simp [write_until, h250, hni]⟩
  · intro now line reset n written h250
    have hni : ¬ 250 ≤ now - reset := by omega
    exact ⟨by simp [read_until, hni], by simp [write_until, hni]⟩
  · intro now n written
    exact ⟨rfl, rfl⟩

/-- Witness for C2 at concrete instants: expiry reached, refresh-and-rearm,
debounced call, and deadline-free call. -/
theorem deadline_governor_c2_witness :
    read_until 1000 (some (900, 500)) (.bytes 3) = .error (.io .timedOut) ∧
    write_until 1000 (some (1200, 500)) 7 = .ok (7, .set 200, some (1200, 1000)) ∧
    read_until 1000 (some (1200, 900)) (.bytes 3) = .ok (3, .keep, some (1200, 900)) ∧
    write_until 1000 none 7 = .ok (7, .keep, none) :=
  ⟨(deadline_governor_c2.1 1000 900 500 (.bytes 3) 7 (by norm_num) (by norm_num)).1,
   (deadline_governor_c2.2.1 1000 1200 500 3 7 (by norm_num) (by norm_num)).2,
   (deadline_governor_c2.2.2.1 1000 1200 900 3 7 (by norm_num)).1,
   (deadline_governor_c2.2.2.2 1000 3 7).2⟩

/-! ## C3 -/

/-- **C3.** Redirect hop cap: a 3xx response received when the recorded hop
list already has length `max_redirects` fails with `MaxRedirectsHit`;
`ClientRequest::new` defaults the maximum to 5; a chain of six 3xx responses
fails with `MaxRedirectsHit` at maximum 5, while the same chain at maximum 6
follows every hop and returns the final 200. -/
theorem redirect_hop_cap_c3 :
    (∀ req resp rest, 300 ≤ resp.code → resp.code ≤ 308 →
      req.redirects.length = req.max_redirects →
      send_script (resp :: rest) req = .error .maxRedirectsHit) ∧
    (∀ m u req, ClientRequestM.new m u = .ok req → req.max_redirects = 5) ∧
    send_script
      (List.replicate 6
        { code := 301, headers := [(bytesOfString "Location", bytesOfString "/r")] } ++
        [{ code := 200, headers := [] }])
      { method := bytesOfString "GET",
        url := { https := false, credentials := none,
                 host := bytesOfString "a:80", resource := bytesOfString "/start" },
        max_redirects := 5, redirects := [] } = .error .maxRedirectsHit ∧
    send_script
      (List.replicate 6
        { code := 301, headers := [(bytesOfString "Location", bytesOfString "/r")] } ++
        [{ code := 200, headers := [] }])
      { method := bytesOfString "GET",
        url := { https := false, credentials := none,
                 host := bytesOfString "a:80", resource := bytesOfString "/start" },
        max_redirects := 6, redirects := [] } = .ok { code := 200, headers := [] } := by
  refine ⟨?_, ?_, by decide, by decide⟩
  · intro req resp rest h1 h2 hlen
    simp [send_script, redirect_step, hlen, if_pos (And.intro h1 h2)]
  · intro m u req h
    unfold ClientRequestM.new at h
    cases hp : parse_url u with
    | error e => rw [hp] at h; cases h
    | ok uu =>
      rw [hp] at h
      simp only [Except.ok.injEq] at h
      rw [← h]

/-- Witness for C3's hypothesis-bearing parts: a fresh request configured
with maximum 0 fails at once on a 300, and a freshly constructed request
carries the default maximum 5. -/
theorem redirect_hop_cap_c3_witness :
    send_script [{ code := 300, headers := [] }]
      { method := bytesOfString "GET",
        url := { https := false, credentials := none,
                 host := bytesOfString "a:80", resource := bytesOfString "/" },
        max_redirects := 0, redirects := [] } = .error .maxRedirectsHit ∧
    ({ method := bytesOfString "GET",
       url := { https := false, credentials := none,
                host := bytesOfString "a:80", resource := bytesOfString "/" },
       max_redirects := 5, redirects := [] } : ClientRequestM).max_redirects = 5 :=
  ⟨redirect_hop_cap_c3.1 _ _ _ (by norm_num) (by norm_num) rfl,
   redirect_hop_cap_c3.2.1 (bytesOfString "GET") (bytesOfString "http://a") _ (by decide)⟩

/-! ## C5 -/

/-- **C5.** REFUTES the claimed chunked-body termination: the byte stream a
chunked `send` writes for the body (`write` + `flush`, the only body bytes
`ClientRequest::send` emits) does NOT end with a zero-size chunk frame —
concretely, chunk size 4 and body `"hello"` yield exactly the two data
frames, and `0\r\n\r\n` is not a suffix of the stream. -/
theorem chunked_termination_c5 :
    chunkedWire 4 (bytesOfString "hello") =
      write_to_payload (bytesOfString "hell") ++ write_to_payload (bytesOfString "o") ∧
    ¬ (write_to_payload []).isSuffixOf (chunkedWire 4 (bytesOfString "hello")) := by
  constructor <;> decide

/-! ## C6 -/

/-- **C6.** Exhibits the Content-Length/compression divergence: `gen_head`
(and the server's `process_request`) always inject `Content-Length` equal to
the RAW body length, even when `Content-Encoding: gzip` is advertised; and
the gzip write path consumes nothing (its `read_exact` into an empty buffer
reads zero bytes), so `write_all_until` of any non-empty body through the
encoder fails with an `UnexpectedEof` I/O error instead of writing the
compressed bytes the header would have to describe. -/
theorem content_length_c6 :
    (∀ b : List Nat, (gen_head_entity none (some b) true).contentLength = some b.length) ∧
    (∀ (b : List Nat) (lvl : Nat),
      (process_request_entity none b true (some lvl)).contentLength = some b.length) ∧
    (gen_head_entity none (some (bytesOfString "hello")) true).contentEncodingGzip = true ∧
    write_all_until gzip_en_write (bytesOfString "hello") = .error (.io .unexpectedEof) :=
  ⟨fun _ => rfl, fun _ _ => rfl, by decide, by decide⟩

/-! ## C9 -/

/-- **C9.** (amended) Missing `Location`: a response with status in
[300, 308] carrying no `Location` header makes `send` fail with
`NoLocationHeader`, provided the hop count has not yet reached
`max_redirects` — the hop-cap check runs first, so at the cap the same
response fails with `MaxRedirectsHit` instead; and the client re-issues the
request (transitions to redirecting) only when both the 3xx status and a
`Location` header are present. -/
theorem missing_location_c9 :
    (∀ req resp rest, 300 ≤ resp.code → resp.code ≤ 308 →
      lookupHM (bytesOfString "Location") resp.headers = none →
      req.redirects.length ≠ req.max_redirects →
      send_script (resp :: rest) req = .error .noLocationHeader) ∧
    (∀ req resp req2, redirect_step req resp = .ok (.inl req2) →
      (300 ≤ resp.code ∧ resp.code ≤ 308) ∧
        ∃ loc, lookupHM (bytesOfString "Location") resp.headers = some loc) ∧
    (∀ req resp rest, 300 ≤ resp.code → resp.code ≤ 308 →
      req.redirects.length = req.max_redirects →
      send_script (resp :: rest) req = .error .maxRedirectsHit) := by
  refine ⟨?_, ?_, ?_⟩
  · intro req resp rest h1 h2 hloc hlen
    simp [send_script, redirect_step, hloc, hlen, if_pos (And.intro h1 h2)]
  · intro req resp req2 h
    unfold redirect_step at h
    by_cases hc : 300 ≤ resp.code ∧ resp.code ≤ 308
    · rw [if_pos hc] at h
      by_cases hlen : req.redirects.length = req.max_redirects
      · rw [if_pos hlen] at h
        cases h
      · rw [if_neg hlen] at h
        cases hloc : lookupHM (bytesOfString "Location") resp.headers with
        | none => rw [hloc] at h; cases h
        | some loc => exact ⟨hc, loc, rfl⟩
    · rw [if_neg hc] at h
      simp at h
  · intro req resp rest h1 h2 hlen
    simp [send_script, redirect_step, hlen, if_pos (And.intro h1 h2)]

/-- Counterexample to C9 as stated: at `max_redirects = 0` a fresh request
receiving a 301 without `Location` does NOT fail with `NoLocationHeader`; the
hop-cap check fires first and it fails with `MaxRedirectsHit`. -/
theorem missing_location_c9_counterexample :
    send_script [{ code := 301, headers := [] }]
      { method := bytesOfString "GET",
        url := { https := false, credentials := none,
                 host := bytesOfString "a:80", resource := bytesOfString "/" },
        max_redirects := 0, redirects := [] } ≠ .error .noLocationHeader ∧
    send_script [{ code := 301, headers := [] }]
      { method := bytesOfString "GET",
        url := { https := false, credentials := none,
                 host := bytesOfString "a:80", resource := bytesOfString "/" },
        max_redirects := 0, redirects := [] } = .error .maxRedirectsHit := by
  constructor <;> decide

/-- Witness for C9's hypothesis-bearing parts at concrete inputs. -/
theorem missing_location_c9_witness :
    send_script [{ code := 304, headers := [] }]
      { method := bytesOfString "GET",
        url := { https := false, credentials := none,
                 host := bytesOfString "a:80", resource := bytesOfString "/" },
        max_redirects := 5, redirects := [] } = .error .noLocationHeader ∧
    ((300 : Int) ≤ (301 : Int) ∧ (301 : Int) ≤ 308) ∧
      ∃ loc, lookupHM (bytesOfString "Location")
        ([(bytesOfString "Location", bytesOfString "/r")] : List (List Nat × List Nat)) =
          some loc :=
  ⟨missing_location_c9.1 _ _ _ (by norm_num) (by norm_num) (by decide) (by decide),
   missing_location_c9.2.1
     { method := bytesOfString "GET",
       url := { https := false, credentials := none,
                host := bytesOfString "a:80", resource := bytesOfString "/" },
       max_redirects := 5, redirects := [] }
     { code := 301, headers := [(bytesOfString "Location", bytesOfString "/r")] }
     { method := bytesOfString "GET",
       url := { https := false, credentials := none,
                host := bytesOfString "a:80", resource := bytesOfString "/r" },
       max_redirects := 5,
       redirects := [(false, bytesOfString "a:80", bytesOfString "/")] }
     (by decide)⟩

/-! ## C10 -/

/-- **C10.** When constructing a client response the body is read from the
stream only when the parsed status code satisfies `code ≤ 300 ∨ 308 ≤ code`:
for 301–307 nothing is read and the body is empty, while 300 and 308 (and
everything outside the open interval) get their body. -/
theorem redirect_body_skip_c10 :
    ∀ (info : GeneralInfo) (decoded : List Nat) (code : Int) (reason : List Nat),
      info.status = .response code reason →
      ((300 < code ∧ code < 308) → (ClientResponseM.new info decoded).body = []) ∧
      ((code ≤ 300 ∨ 308 ≤ code) → (ClientResponseM.new info decoded).body = decoded) := by
  intro info decoded code reason hst
  constructor
  · intro hmid
    have hni : ¬ (code ≤ 300 ∨ 308 ≤ code) := by omega
    simp [ClientResponseM.new, hst, hni]
  · intro h
    simp [ClientResponseM.new, hst, h]

/-- Witness for C10: a 302 gets an empty body, a 308 gets the stream's
bytes. -/
theorem redirect_body_skip_c10_witness :
    (ClientResponseM.new { status := .response 302 [], headers := [] } [1, 2]).body = [] ∧
    (ClientResponseM.new { status := .response 308 [], headers := [] } [1, 2]).body = [1, 2] :=
  ⟨(redirect_body_skip_c10 _ [1, 2] 302 [] rfl).1 (by norm_num),
   (redirect_body_skip_c10 _ [1, 2] 308 [] rfl).2 (by norm_num)⟩

/-! ## Helper lemmas: header map and expectation checks -/

/-- Lookup after a hash-map insert: the inserted key reads back the new
value, every other key is untouched. -/
theorem lookup_insertHM {α β : Type} [DecidableEq α] (q k : α) (v : β) :
    ∀ m : List (α × β),
      lookupHM q (insertHM k v m) = if k = q then some v else lookupHM q m := by
  intro m
  induction m with
  | nil => simp [insertHM, lookupHM]
  | cons a rest ih =>
    obtain ⟨ak, av⟩ := a
    by_cases hak : ak = k
    · subst hak
      by_cases hq : ak = q
      · subst hq
        simp [insertHM, lookupHM]
      · simp [insertHM, lookupHM, hq]
    · by_cases hq : ak = q
      · subst hq
        have hkq : ¬ k = ak := fun h => hak h.symm
        simp [insertHM, lookupHM, hak, hkq]
      · simp [insertHM, lookupHM, hak, hq, ih]

/-- The processed header map reads like the parsed lines scanned from the
last one backwards (`HashMap::insert` keeps the last value of a key). -/
theorem process_header_lines_lookup (k : List Nat) :
    ∀ lines, lookupHM k (process_header_lines lines) =
      lookupHM k (lines.filterMap parse_header).reverse := by
  intro lines
  induction lines using List.reverseRecOn with
  | nil => rfl
  | append_singleton ls l ih =>
    unfold process_header_lines at ih ⊢
    rw [List.foldl_append, List.filterMap_append]
    cases hp : parse_header l with
    | none =>
      simp only [List.foldl_cons, List.foldl_nil, hp]
      simpa [hp] using ih
    | some kv =>
      simp only [List.foldl_cons, List.foldl_nil, hp, List.filterMap_cons,
        List.filterMap_nil, List.reverse_append, List.reverse_cons,
        List.reverse_nil, List.nil_append, List.singleton_append]
      rw [lookup_insertHM k kv.1 kv.2]
      by_cases hk : kv.1 = k
      · simp [lookupHM, hk]
      · simp only [lookupHM, if_neg hk]
        exact ih

/-- Association-list lookup is permutation-invariant when the keys are
pairwise distinct. -/
theorem lookup_perm_nodup {α β : Type} [DecidableEq α] {ps1 ps2 : List (α × β)}
    (hperm : ps1.Perm ps2) (hnd : (ps1.map Prod.fst).Nodup) :
    ∀ k, lookupHM k ps1 = lookupHM k ps2 := by
  induction hperm with
  | nil => intro k; rfl
  | cons x _ ih =>
    intro k
    simp only [List.map_cons, List.nodup_cons] at hnd
    by_cases hx : x.1 = k
    · simp [lookupHM, hx]
    · simp [lookupHM, hx, ih hnd.2 k]
  | swap x y l =>
    intro k
    simp only [List.map_cons, List.nodup_cons, List.mem_cons] at hnd
    have hxy : y.1 ≠ x.1 := fun h => hnd.1 (Or.inl h)
    by_cases hx : x.1 = k
    · have hy : ¬ y.1 = k := fun h => hxy (h.trans hx.symm)
      simp [lookupHM, hx, hy]
    · by_cases hy : y.1 = k
      · simp [lookupHM, hx, hy]
      · simp [lookupHM, hx, hy]
  | trans h12 _ ih1 ih2 =>
    intro k
    rw [ih1 hnd k]
    exact ih2 ((h12.map Prod.fst).nodup_iff.mp hnd) k

/-- A run of checks that all return code 100 ends with the initial
`(100, None)`. -/
theorem run_expect_checks_all100 (info : GeneralInfo) :
    ∀ hs : List ExpectHandlerM, (∀ g ∈ hs, ∃ m, g info = .ok (100, m)) →
      run_expect_checks hs info = .ok (100, none) := by
  intro hs
  induction hs with
  | nil => intro _; rfl
  | cons h rest ih =>
    intro hall
    obtain ⟨m, hm⟩ := hall h (List.mem_cons_self _ _)
    simp only [run_expect_checks, hm]
    rw [if_neg (by simp : ¬ ((100 : Int) ≠ 100))]
    exact ih (fun g hg => hall g (List.mem_cons_of_mem _ hg))

/-- The first check returning a non-100 code short-circuits the run with its
code and message. -/
theorem run_expect_checks_break (info : GeneralInfo) :
    ∀ (pre : List ExpectHandlerM) (h : ExpectHandlerM) (post : List ExpectHandlerM)
      (code : Int) (msg : Option (List Nat)),
      (∀ g ∈ pre, ∃ m, g info = .ok (100, m)) → h info = .ok (code, msg) →
      code ≠ 100 →
      run_expect_checks (pre ++ h :: post) info = .ok (code, msg) := by
  intro pre
  induction pre with
  | nil =>
    intro h post code msg _ hh hc
    show run_expect_checks (h :: post) info = .ok (code, msg)
    simp only [run_expect_checks, hh]
    rw [if_pos hc]
  | cons g rest ih =>
    intro h post code msg hall hh hc
    obtain ⟨m, hm⟩ := hall g (List.mem_cons_self _ _)
    show run_expect_checks (g :: (rest ++ h :: post)) info = .ok (code, msg)
    simp only [run_expect_checks, hm]
    rw [if_neg (by simp : ¬ ((100 : Int) ≠ 100))]
    exact ih h post code msg (fun g' hg => hall g' (List.mem_cons_of_mem _ hg)) hh hc

/-! ## C7 -/

/-- **C7.** (amended) Start-line parsing: after splitting on spaces and
discarding empty tokens, if the second token parses as an `i32` and a third
token follows, the result is `Response(code, reason)` where the reason is
THAT THIRD TOKEN ALONE (the source reads one more token, not the rest of the
line); if the second token is valid text but not an integer, the result is
`Request(first token, second token)`; `"HTTP/1.1 200 OK"` parses to
`Response(200, "OK")` and `"GET /foo HTTP/1.1"` to `Request("GET", "/foo")`;
a line with exactly one token fails with `NoStatusLineInResponse`, while a
line with no tokens at all panics (`split.nth(0).unwrap()`) instead of
returning that error. -/
theorem status_line_c7 :
    parse_status_line (bytesOfString "HTTP/1.1 200 OK") =
      .ok (.response 200 (bytesOfString "OK")) ∧
    parse_status_line (bytesOfString "GET /foo HTTP/1.1") =
      .ok (.request (bytesOfString "GET") (bytesOfString "/foo")) ∧
    (∀ (line m ct rt : List Nat) (rest : List (List Nat)) (code : Int),
      tokens line = m :: ct :: rt :: rest →
      utf8Valid ct = true → parseI32 ct = some code → utf8Valid rt = true →
      parse_status_line line = .ok (.response code rt)) ∧
    (∀ (line m ct : List Nat) (rest : List (List Nat)),
      tokens line = m :: ct :: rest →
      utf8Valid ct = true → parseI32 ct = none → utf8Valid m = true →
      parse_status_line line = .ok (.request m ct)) ∧
    (∀ (line m : List Nat), tokens line = [m] →
      parse_status_line line = .errNoStatus) ∧
    (∀ line : List Nat, tokens line = [] → parse_status_line line = .panicked) := by
  refine ⟨by decide, by decide, ?_, ?_, ?_, ?_⟩
  · intro line m ct rt rest code htok hvct hparse hvrt
    unfold parse_status_line
    rw [htok]
    simp [hvct, hparse, hvrt]
  · intro line m ct rest htok hvct hparse hvm
    unfold parse_status_line
    rw [htok]
    cases rest with
    | nil => simp [hvct, hparse, hvm]
    | cons a as => simp [hvct, hparse, hvm]
  · intro line m htok
    unfold parse_status_line
    rw [htok]
  · intro line htok
    unfold parse_status_line
    rw [htok]

/-- Counterexample to C7 as stated: on `"HTTP/1.1 404 Not Found"` the reason
is `"Not"`, not the claimed concatenation of all remaining tokens
`"Not Found"`. -/
theorem status_line_c7_counterexample :
    parse_status_line (bytesOfString "HTTP/1.1 404 Not Found") =
      .ok (.response 404 (bytesOfString "Not")) ∧
    parse_status_line (bytesOfString "HTTP/1.1 404 Not Found") ≠
      .ok (.response 404 (bytesOfString "Not Found")) := by
  constructor <;> decide

/-- Witness for C7's hypothesis-bearing parts at concrete lines. -/
theorem status_line_c7_witness :
    parse_status_line (bytesOfString "HTTP/1.1 503 X") =
      .ok (.response 503 (bytesOfString "X")) ∧
    parse_status_line (bytesOfString "PUT /a HTTP/1.1") =
      .ok (.request (bytesOfString "PUT") (bytesOfString "/a")) ∧
    parse_status_line (bytesOfString "GET") = .errNoStatus ∧
    parse_status_line [] = .panicked :=
  ⟨status_line_c7.2.2.1 _ (bytesOfString "HTTP/1.1") (bytesOfString "503")
     (bytesOfString "X") [] 503 (by decide) (by decide) (by decide) (by decide),
   status_line_c7.2.2.2.1 _ (bytesOfString "PUT") (bytesOfString "/a")
     [bytesOfString "HTTP/1.1"] (by decide) (by decide) (by decide) (by decide),
   status_line_c7.2.2.2.2.1 _ (bytesOfString "GET") (by decide),
   status_line_c7.2.2.2.2.2 _ (by decide)⟩

/-! ## C8 -/

/-- **C8.** Header-block parsing: the resulting mapping is independent of the
order of lines with distinct keys; when the same key appears on several
lines the last occurrence's value is kept; and a line without a colon or
with invalid text encoding is skipped without affecting the parse of the
rest of the block. -/
theorem header_block_c8 :
    (∀ l1 l2 : List (List Nat), l1.Perm l2 →
      ((l1.filterMap parse_header).map Prod.fst).Nodup →
      ∀ k, lookupHM k (process_header_lines l1) = lookupHM k (process_header_lines l2)) ∧
    (∀ (ls : List (List Nat)) (line k v : List Nat),
      parse_header line = some (k, v) →
      lookupHM k (process_header_lines (ls ++ [line])) = some v) ∧
    (∀ (pre post : List (List Nat)) (bad : List Nat), parse_header bad = none →
      process_header_lines (pre ++ bad :: post) = process_header_lines (pre ++ post)) := by
  refine ⟨?_, ?_, ?_⟩
  · intro l1 l2 hperm hnd k
    rw [process_header_lines_lookup k l1, process_header_lines_lookup k l2]
    have hfm : (l1.filterMap parse_header).Perm (l2.filterMap parse_header) :=
      hperm.filterMap _
    have hrev : (l1.filterMap parse_header).reverse.Perm
        (l2.filterMap parse_header).reverse :=
      (List.reverse_perm _).trans (hfm.trans (List.reverse_perm _).symm)
    refine lookup_perm_nodup hrev ?_ k
    rw [List.map_reverse]
    exact List.nodup_reverse.mpr hnd
  · intro ls line k v hp
    rw [process_header_lines_lookup]
    simp only [List.filterMap_append, List.filterMap_cons, hp, List.filterMap_nil,
      List.reverse_append, List.reverse_cons, List.reverse_nil, List.nil_append,
      List.singleton_append, lookupHM]
    simp
  · intro pre post bad hp
    unfold process_header_lines
    simp only [List.foldl_append, List.foldl_cons, hp]

/-- Witness for C8 at concrete header blocks: two distinct-key lines permuted
give the same lookup, a duplicated key keeps its last value, and a
colon-free line is skipped. -/
theorem header_block_c8_witness :
    lookupHM (bytesOfString "A")
      (process_header_lines [bytesOfString "A: 1", bytesOfString "B: 2"]) =
      lookupHM (bytesOfString "A")
        (process_header_lines [bytesOfString "B: 2", bytesOfString "A: 1"]) ∧
    lookupHM (bytesOfString "A")
      (process_header_lines [bytesOfString "A: 1", bytesOfString "A: 2"]) =
      some (bytesOfString "2") ∧
    process_header_lines
      [bytesOfString "A: 1", bytesOfString "no colon", bytesOfString "B: 2"] =
      process_header_lines [bytesOfString "A: 1", bytesOfString "B: 2"] :=
  ⟨header_block_c8.1 _ _ (by decide) (by decide) _,
   header_block_c8.2.1 [bytesOfString "A: 1"] (bytesOfString "A: 2")
     (bytesOfString "A") (bytesOfString "2") (by decide),
   header_block_c8.2.2 [bytesOfString "A: 1"] [bytesOfString "B: 2"]
     (bytesOfString "no colon") (by decide)⟩

/-! ## C4 -/

/-- **C4.** (amended) 100-continue negotiation: with an `Expect` header and
registered checks, the checks run in registration order and the first
non-100 code stops the rest; if the resulting code is 100 the server writes
`100 Continue` and proceeds to read the body and dispatch on the same
connection; if the resulting code is a non-100 code RECOGNIZED BY THE STATUS
TABLE the server writes a response with that code and the check's optional
message as body and neither reads the body nor dispatches; a check returning
a code outside the status table instead aborts the connection with
`HTTPStatusCodeNotRecognized` before anything is written.  Without `Expect`
or without checks, processing proceeds directly. -/
theorem expect_continue_c4 :
    (∀ (info : GeneralInfo) (pre : List ExpectHandlerM) (h : ExpectHandlerM)
        (post : List ExpectHandlerM) (code : Int) (msg : Option (List Nat)),
      (lookupHM (bytesOfString "Expect") info.headers).isSome = true →
      (∀ g ∈ pre, ∃ m, g info = .ok (100, m)) →
      h info = .ok (code, msg) → code ≠ 100 →
      (statusReasonTable code).isSome = true →
      handle_expect info (pre ++ h :: post) =
        .ok { interim := some (code, msg), proceeded := false }) ∧
    (∀ (info : GeneralInfo) (handlers : List ExpectHandlerM),
      (lookupHM (bytesOfString "Expect") info.headers).isSome = true →
      handlers ≠ [] →
      (∀ g ∈ handlers, ∃ m, g info = .ok (100, m)) →
      handle_expect info handlers =
        .ok { interim := some (100, none), proceeded := true }) ∧
    (∀ (info : GeneralInfo) (handlers : List ExpectHandlerM),
      ((lookupHM (bytesOfString "Expect") info.headers).isSome
          && !handlers.isEmpty) = false →
      handle_expect info handlers = .ok { interim := none, proceeded := true }) ∧
    (∀ (info : GeneralInfo) (pre : List ExpectHandlerM) (h : ExpectHandlerM)
        (post : List ExpectHandlerM) (code : Int) (msg : Option (List Nat)),
      (lookupHM (bytesOfString "Expect") info.headers).isSome = true →
      (∀ g ∈ pre, ∃ m, g info = .ok (100, m)) →
      h info = .ok (code, msg) → code ≠ 100 → statusReasonTable code = none →
      handle_expect info (pre ++ h :: post) = .error .httpStatusCodeNotRecognized) := by
  refine ⟨?_, ?_, ?_, ?_⟩
  · intro info pre h post code msg hexp hall hh hc htab
    have hne : (pre ++ h :: post).isEmpty = false := by cases pre <;> rfl
    simp only [handle_expect, hexp, hne, Bool.not_false, Bool.and_true, if_true]
    rw [run_expect_checks_break info pre h post code msg hall hh hc]
    obtain ⟨r, hr⟩ := Option.isSome_iff_exists.mp htab
    simp [hr, hc]
  · intro info handlers hexp hne hall
    have hne' : handlers.isEmpty = false := by
      cases handlers with
      | nil => exact absurd rfl hne
      | cons a l => rfl
    simp only [handle_expect, hexp, hne', Bool.not_false, Bool.and_true, if_true]
    rw [run_expect_checks_all100 info handlers hall]
    simp [statusReasonTable]
  · intro info handlers hcond
    simp [handle_expect, hcond]
  · intro info pre h post code msg hexp hall hh hc htab
    have hne : (pre ++ h :: post).isEmpty = false := by cases pre <;> rfl
    simp only [handle_expect, hexp, hne, Bool.not_false, Bool.and_true, if_true]
    rw [run_expect_checks_break info pre h post code msg hall hh hc]
    simp [htab]

/-- Counterexample to C4 as stated: a check returning the unrecognized code
999 does not make the server write a 999 response — the connection aborts
with `HTTPStatusCodeNotRecognized` and nothing is written. -/
theorem expect_continue_c4_counterexample :
    handle_expect
      { status := .request (bytesOfString "POST") (bytesOfString "/u"),
        headers := [(bytesOfString "Expect", bytesOfString "100-continue")] }
      [fun _ => .ok (999, none)] = .error .httpStatusCodeNotRecognized ∧
    handle_expect
      { status := .request (bytesOfString "POST") (bytesOfString "/u"),
        headers := [(bytesOfString "Expect", bytesOfString "100-continue")] }
      [fun _ => .ok (999, none)] ≠
      .ok { interim := some (999, none), proceeded := false } := by
  constructor <;> decide

/-- Witness for C4: a `(417, Some "nope")` check yields a 417 interim
response with body `"nope"` and no dispatch; an all-100 run yields the
`100 Continue` interim response and proceeds; no `Expect` header proceeds
directly. -/
theorem expect_continue_c4_witness :
    handle_expect
      { status := .request (bytesOfString "POST") (bytesOfString "/u"),
        headers := [(bytesOfString "Expect", bytesOfString "100-continue")] }
      [fun _ => .ok (417, some (bytesOfString "nope"))] =
      .ok { interim := some (417, some (bytesOfString "nope")), proceeded := false } ∧
    handle_expect
      { status := .request (bytesOfString "POST") (bytesOfString "/u"),
        headers := [(bytesOfString "Expect", bytesOfString "100-continue")] }
      [fun _ => .ok (100, none)] =
      .ok { interim := some (100, none), proceeded := true } ∧
    handle_expect
      { status := .request (bytesOfString "POST") (bytesOfString "/u"), headers := [] }
      [fun _ => .ok (417, none)] = .ok { interim := none, proceeded := true } :=
  ⟨expect_continue_c4.1 _ [] (fun _ => .ok (417, some (bytesOfString "nope"))) []
     417 (some (bytesOfString "nope")) (by decide) (by simp) rfl (by norm_num) (by decide),
   expect_continue_c4.2.1 _ [fun _ => .ok (100, none)] (by decide) (by simp)
     (by intro g hg; simp at hg; exact ⟨none, by rw [hg]⟩),
   expect_continue_c4.2.2.1 _ [fun _ => .ok (417, none)] (by decide)⟩

end Slimweb
